import Mathlib

/-!
Verification of the pattern-detection and backtest-simulation engine of the
auto-trader repository, via a shallow embedding of its Python sources into
Lean 4.  The embedding follows the source files:

  src/services/technical_analysis.py   (indicator engine, chart patterns)
  src/services/backtester.py           (backtest simulator and metrics)
  src/services/strategy.py             (strategy generator with mock fallback)
  src/services/crypto_patterns.py      (crypto pattern detectors)
  src/backtesting/pattern_analyzer.py  (orderblock scan, ML validation)
  src/backtesting/data_collector.py    (regime segmentation)

Machine floats are modelled as rationals; Python exceptions are modelled as
explicit error constructors or Except values.  Helper methods that are called
by the sources but are absent from the repository are taken as parameters of
the embedding (each call site passes only its trailing window slice, which the
parameters reflect), or, where a single concrete instance is needed, modelled
from the specification and documented as such.
-/

namespace AutoTrader

/-- One OHLCV bar of the prepared dataframe.  Besides the raw OHLCV columns it
carries the columns added by Backtester._prepare_data that the embedded code
reads: the ATR column and the IV-rank column.  The timestamp is a rational. -/
structure Bar where
  open_ : ℚ
  high : ℚ
  low : ℚ
  close : ℚ
  volume : ℚ
  atr : ℚ
  ivRank : ℚ
  t : ℚ
deriving DecidableEq, Repr

/-- A formation point of a chart pattern, per the ChartPattern dataclass of
technical_analysis.py: a price together with a time. -/
structure FormationPoint where
  price : ℚ
  time : ℚ
deriving DecidableEq, Repr

/-- The ChartPattern dataclass of technical_analysis.py.  The confidence field
is an Option because _calculate_pattern_confidence in the source has an empty
body and therefore returns None. -/
structure ChartPattern where
  patternType : String
  confidence : Option ℚ
  priceTarget : ℚ
  stopLoss : ℚ
  formationPoints : List FormationPoint
  volumeConfirms : Bool
deriving DecidableEq, Repr

/-- The orderblock record built by PatternAnalyzer._analyze_orderblocks. -/
structure OBPattern where
  position : String
  priceLevel : ℚ
  volumeRatio : ℚ
  strength : ℚ
deriving DecidableEq, Repr

/-- The CryptoPattern dataclass of crypto_patterns.py, with the dictionary
valued fields summarised as rationals or lists produced by the corresponding
helper parameters. -/
structure CryptoPattern where
  patternType : String
  confidence : ℚ
  priceTarget : ℚ
  stopLoss : ℚ
  volumeProfile : ℚ
  liquidationLevels : List ℚ
  fundingRate : ℚ
  oiImpact : ℚ
deriving DecidableEq, Repr

/-- The strategy dictionary produced by StrategyGenerator (strategy.py). -/
structure Strategy where
  action : String
  symbol : String
  entryPrice : ℚ
  stopLoss : ℚ
  takeProfit : ℚ
  positionSize : ℚ
  timeframe : String
  confidence : ℚ
  strategyType : String
deriving DecidableEq, Repr

/-- The trade dictionary built by Backtester._execute_trade. -/
structure TradeRec where
  entryTime : ℚ
  strategyType : String
  positionSize : ℚ
  entryPrice : ℚ
  exitPrice : ℚ
  pnl : ℚ
  optionsData : ℚ
deriving DecidableEq, Repr

/-- The mutable state of Backtester.run_backtest: the trade list, the current
capital and the equity curve. -/
structure BState where
  trades : List TradeRec
  capital : ℚ
  equity : List ℚ
deriving DecidableEq, Repr

/-- The market-data dictionary consumed by StrategyGenerator; only the symbol
entry is read by the embedded code paths. -/
structure MarketData where
  symbol : Option String
deriving DecidableEq, Repr

/-- The basic block of Backtester._calculate_performance_metrics: trade counts,
win rate and total pnl.  The remaining fields of BacktestResult are produced
by helper methods absent from the repository and are not modelled here. -/
structure Metrics where
  totalTrades : Nat
  winningTrades : Nat
  losingTrades : Nat
  winRate : ℚ
  totalPnl : ℚ
deriving DecidableEq, Repr

/-- Result of the put/call-ratio computation.  The val and posInf constructors
are the two values TechnicalAnalysis._calculate_put_call_ratio can produce
(a float, or float infinity); undefinedSentinel is the explicit sentinel the
specification expects and is never produced by the code. -/
inductive PcrResult
  | val : ℚ → PcrResult
  | posInf : PcrResult
  | undefinedSentinel : PcrResult
deriving DecidableEq, Repr

/-- Result of the IV-rank computation.  val models a normal float return,
zeroDivErr models the Python ZeroDivisionError raised by a zero denominator,
and nullValue is the null sentinel the specification expects, never produced
by the code. -/
inductive IvRankResult
  | val : ℚ → IvRankResult
  | zeroDivErr : IvRankResult
  | nullValue : IvRankResult
deriving DecidableEq, Repr

/-- TechnicalAnalysis._calculate_put_call_ratio: sums the put and call volume
dictionaries and returns put over call if the call volume is positive, and
float infinity otherwise. -/
def putCallRatioOf (putVolumes callVolumes : List ℚ) : PcrResult :=
  let p := putVolumes.sum
  let c := callVolumes.sum
  if c > 0 then .val (p / c) else .posInf

/-- TechnicalAnalysis._calculate_iv_rank: computes
(currentIv - ivLow) / (ivHigh - ivLow) * 100 with Python float division, which
raises ZeroDivisionError when the denominator is zero. -/
def ivRankOf (currentIv ivHigh ivLow : ℚ) : IvRankResult :=
  if ivHigh - ivLow = 0 then .zeroDivErr
  else .val ((currentIv - ivLow) / (ivHigh - ivLow) * 100)

/-- One iteration of the loop of HistoricalDataCollector._get_regime_periods:
the state carries the optional current start index and the periods collected
so far; a true bar opens a run if none is open, a false bar closes an open
run at the current index. -/
def grpStep (st : Option Nat × List (Nat × Nat)) (iv : Nat × Bool) :
    Option Nat × List (Nat × Nat) :=
  match st, iv with
  | (none, acc), (i, true) => (some i, acc)
  | (some s, acc), (i, false) => (none, acc ++ [(s, i)])
  | (cs, acc), _ => (cs, acc)

/-- HistoricalDataCollector._get_regime_periods: folds grpStep over the
enumerated mask and returns the collected periods; an open run remaining at
the end of the mask is not appended. -/
def getRegimePeriods (mask : List Bool) : List (Nat × Nat) :=
  (mask.enum.foldl grpStep (none, [])).2

/-- Modelled from the spec (amended): a regime starts at the first bar where
the mask becomes true and ends exclusively at the first subsequent bar where
it becomes false; a run still true at the sequence end is dropped.  Structural
recursion used as the reference for the fold-based source embedding. -/
def regimeRunsFrom : Nat → Option Nat → List Bool → List (Nat × Nat)
  | _, _, [] => []
  | i, none, true :: rest => regimeRunsFrom (i + 1) (some i) rest
  | i, none, false :: rest => regimeRunsFrom (i + 1) none rest
  | i, some s, true :: rest => regimeRunsFrom (i + 1) (some s) rest
  | i, some s, false :: rest => (s, i) :: regimeRunsFrom (i + 1) none rest

/-- Reference regime segmentation starting from index 0 with no open run. -/
def regimeRunsClosed (mask : List Bool) : List (Nat × Nat) :=
  regimeRunsFrom 0 none mask

/-- Python max over a list of rationals; the sources only apply it to lists
with at least two elements, where the default is irrelevant. -/
def listMax : List ℚ → ℚ
  | [] => 0
  | x :: xs => xs.foldl max x

/-- Python min over a list of rationals. -/
def listMin : List ℚ → ℚ
  | [] => 0
  | x :: xs => xs.foldl min x

/-- The trailing window used by the windowed detectors: df.iloc[i-w:i] for a
loop index i at least w, written as a take followed by a drop so that it
manifestly depends only on the first i bars. -/
def windowSlice (df : List Bar) (i w : Nat) : List Bar :=
  (df.take i).drop (i - w)

/-- TechnicalAnalysis._calculate_pattern_confidence: its body in the source is
a bare pass statement, so it returns None for every input. -/
def patternConfidenceOf (_slice : List Bar) (_points : List ℚ) : Option ℚ :=
  none

/-- The last element of the ATR column of a slice (slice_df.atr.iloc[-1]); the
detectors only evaluate it on nonempty slices, where the default is
irrelevant. -/
def lastAtr (slice : List Bar) : ℚ :=
  ((slice.map Bar.atr).getLast?).getD 0

/-- The patterns appended by the iteration of index i of the loop of
TechnicalAnalysis._find_double_tops_bottoms.  The iteration slices the 20-bar
trailing window df.iloc[i-20:i], finds peaks of the high column and troughs of
the negated low column, and on validation emits a double_top or double_bottom
ChartPattern.  The formation points zip the peak prices with the timestamps of
the first bars of the slice, because the source shadows the loop index in its
enumerate comprehension and indexes slice_df.index with the enumeration
counter.  The helpers _find_peaks, _validate_double_top,
_validate_double_bottom, _calculate_price_target and
_check_volume_confirmation are absent from the repository and are parameters;
each receives exactly the data its call site passes (the slice, and the peak
or trough list). -/
def doubleTopsAt (findPeaks : List ℚ → List ℚ)
    (validateDT validateDB : List Bar → List ℚ → Bool)
    (target : List Bar → List ℚ → String → ℚ)
    (volConf : List Bar → List ℚ → Bool)
    (df : List Bar) (i : Nat) : List ChartPattern :=
  if 20 ≤ i ∧ i < df.length then
    let slice := windowSlice df i 20
    let peaks := findPeaks (slice.map Bar.high)
    let troughs := findPeaks ((slice.map Bar.low).map Neg.neg)
    let dt : List ChartPattern :=
      if 2 ≤ peaks.length ∧ validateDT slice peaks then
        [{ patternType := "double_top"
           confidence := patternConfidenceOf slice peaks
           priceTarget := target slice peaks "double_top"
           stopLoss := listMax peaks + lastAtr slice * (3 / 2)
           formationPoints :=
             (peaks.zip (slice.map Bar.t)).map fun pt =>
               { price := pt.1, time := pt.2 }
           volumeConfirms := volConf slice peaks }]
      else []
    let db : List ChartPattern :=
      if 2 ≤ troughs.length ∧ validateDB slice troughs then
        [{ patternType := "double_bottom"
           confidence := patternConfidenceOf slice troughs
           priceTarget := target slice troughs "double_bottom"
           stopLoss := listMin troughs - lastAtr slice * (3 / 2)
           formationPoints :=
             (troughs.zip (slice.map Bar.t)).map fun pt =>
               { price := pt.1, time := pt.2 }
           volumeConfirms := volConf slice troughs }]
      else []
    dt ++ db
  else []

/-- TechnicalAnalysis._find_double_tops_bottoms: the whole scan, collecting the
patterns of every loop iteration in order. -/
def findDoubleTopsBottoms (findPeaks : List ℚ → List ℚ)
    (validateDT validateDB : List Bar → List ℚ → Bool)
    (target : List Bar → List ℚ → String → ℚ)
    (volConf : List Bar → List ℚ → Bool)
    (df : List Bar) : List ChartPattern :=
  (List.range df.length).flatMap
    (doubleTopsAt findPeaks validateDT validateDB target volConf df)

/-- The pattern emitted by the iteration of index i of the loop of
CryptoPatternAnalyzer._find_wyckoff_accumulation.  The iteration slices the
30-bar trailing window df.iloc[i-30:i] and, when the spring signature holds,
emits a wyckoff_spring CryptoPattern whose fields are computed from the slice
alone; the stop loss is the minimum low of the slice.  All helper methods are
absent from the repository and are parameters receiving the slice, exactly as
at their call sites. -/
def wyckoffAt (isSpring : List Bar → Bool)
    (springConf wyTarget volProf fundRate oiImp : List Bar → ℚ)
    (nearbyLiq : List Bar → List ℚ)
    (df : List Bar) (i : Nat) : List CryptoPattern :=
  if 30 ≤ i ∧ i < df.length then
    let slice := windowSlice df i 30
    if isSpring slice then
      [{ patternType := "wyckoff_spring"
         confidence := springConf slice
         priceTarget := wyTarget slice
         stopLoss := listMin (slice.map Bar.low)
         volumeProfile := volProf slice
         liquidationLevels := nearbyLiq slice
         fundingRate := fundRate slice
         oiImpact := oiImp slice }]
    else []
  else []

/-- The mean of the volume column of the whole dataframe (data.volume.mean()),
as read by PatternAnalyzer._analyze_orderblocks. -/
def volumeMean (data : List Bar) : ℚ :=
  (data.map Bar.volume).sum / data.length

/-- The orderblock record emitted at loop index i by
PatternAnalyzer._analyze_orderblocks: when bar i triggers, the record reads
bar i itself, the mean volume of the whole series, and the ten bars starting
at i (data.iloc[i:i+10]).  The helpers _is_orderblock_candle,
_is_bullish_orderblock and _calculate_orderblock_strength are absent from the
repository and are parameters receiving exactly what their call sites pass. -/
def obEmitAt (isOB isBull : Bar → Bool) (strengthFn : List Bar → ℚ)
    (data : List Bar) (i : Nat) : Option OBPattern :=
  match data[i]? with
  | none => none
  | some b =>
    if isOB b then
      some { position := if isBull b then "bullish" else "bearish"
             priceLevel := b.close
             volumeRatio := b.volume / volumeMean data
             strength := strengthFn ((data.drop i).take 10) }
    else none

/-- PatternAnalyzer._analyze_orderblocks: the loop over range(len(data) - 1)
collecting the emitted orderblock records. -/
def analyzeOrderblocks (isOB isBull : Bar → Bool) (strengthFn : List Bar → ℚ)
    (data : List Bar) : List OBPattern :=
  (List.range (data.length - 1)).filterMap (obEmitAt isOB isBull strengthFn data)

/-- StrategyGenerator._generate_mock_strategy: the fixed BUY proposal returned
in mock mode and on any failure of the live path. -/
def mockStrategy (md : MarketData) : Strategy :=
  { action := "BUY"
    symbol := md.symbol.getD "BTC-USDT"
    entryPrice := 50000
    stopLoss := 49000
    takeProfit := 52000
    positionSize := 1 / 10
    timeframe := "1h"
    confidence := 4 / 5
    strategyType := "mock_strategy" }

/-- StrategyGenerator._enrich_market_data: catches its own errors and returns
the unenriched market data when enrichment fails. -/
def enrichMarketData (enrichFn : MarketData → Except Unit MarketData)
    (md : MarketData) : MarketData :=
  match enrichFn md with
  | .ok e => e
  | .error _ => md

/-- StrategyGenerator.generate_strategy: enriches the market data, returns the
mock strategy in mock mode, otherwise calls the assistant (the llm parameter
covers the whole create/run/poll/parse pipeline, any step of which may raise)
and validates the parsed strategy; an invalid strategy raises, and the
enclosing handler turns every failure of the live path into the mock strategy
built from the original market data.  The function never returns the absence
of a proposal. -/
def generateStrategy (mockMode : Bool)
    (enrichFn : MarketData → Except Unit MarketData)
    (llm : MarketData → Except Unit Strategy)
    (validate : Strategy → Bool)
    (md : MarketData) : Strategy :=
  let enriched := enrichMarketData enrichFn md
  if mockMode then mockStrategy enriched
  else
    match llm enriched with
    | .error _ => mockStrategy md
    | .ok s => if validate s then s else mockStrategy md

/-- Backtester._execute_trade: sizes the position from the current capital,
takes the close as entry price, then simulates option prices, the exit price
and the pnl in order.  The three simulation helpers are absent from the
repository and are parameters that may fail; the enclosing handler turns any
failure into a None result, so a failing step yields no trade. -/
def executeTrade (simOpt : ℚ → ℚ → Strategy → Except Unit ℚ)
    (simExit : Strategy → Bar → Except Unit ℚ)
    (calcPnl : Strategy → ℚ → ℚ → Except Unit ℚ)
    (strat : Strategy) (b : Bar) (capital pct : ℚ) : Option TradeRec :=
  let positionSize := capital * pct
  let entryPrice := b.close
  match simOpt entryPrice b.ivRank strat with
  | .error _ => none
  | .ok prices =>
    match simExit strat b with
    | .error _ => none
    | .ok exitPrice =>
      match calcPnl strat prices positionSize with
      | .error _ => none
      | .ok pnl =>
        some { entryTime := b.t
               strategyType := strat.strategyType
               positionSize := positionSize
               entryPrice := entryPrice
               exitPrice := exitPrice
               pnl := pnl
               optionsData := prices }

/-- One iteration of the loop of Backtester.run_backtest: bars outside the
date range are skipped; otherwise the oracle (generate_strategy) is consulted,
a falsy strategy generates no trade, and a successful trade execution appends
the trade, adds its pnl to the capital and appends the new capital to the
equity curve. -/
def btStep (oracle : Bar → Option Strategy)
    (executor : Strategy → Bar → ℚ → ℚ → Option TradeRec)
    (startT endT pct : ℚ) (st : BState) (b : Bar) : BState :=
  if startT ≤ b.t ∧ b.t ≤ endT then
    match oracle b with
    | none => st
    | some strat =>
      match executor strat b st.capital pct with
      | none => st
      | some tr =>
        { trades := st.trades ++ [tr]
          capital := st.capital + tr.pnl
          equity := st.equity ++ [st.capital + tr.pnl] }
  else st

/-- Backtester.run_backtest: folds the per-bar step over the prepared bars,
starting from an empty trade list, the initial capital and a one-element
equity curve holding the initial capital. -/
def runBacktest (oracle : Bar → Option Strategy)
    (executor : Strategy → Bar → ℚ → ℚ → Option TradeRec)
    (bars : List Bar) (startT endT init pct : ℚ) : BState :=
  bars.foldl (btStep oracle executor startT endT pct)
    { trades := [], capital := init, equity := [init] }

/-- Sum of the realized pnl of a trade list. -/
def sumPnl (trades : List TradeRec) : ℚ :=
  (trades.map TradeRec.pnl).sum

/-- The basic block of Backtester._calculate_performance_metrics: counts,
win rate guarded against an empty trade list, and total pnl. -/
def calcPerformanceMetrics (trades : List TradeRec) : Metrics :=
  let total := trades.length
  let winning := (trades.filter fun t => t.pnl > 0).length
  { totalTrades := total
    winningTrades := winning
    losingTrades := total - winning
    winRate := if total > 0 then (winning : ℚ) / (total : ℚ) else 0
    totalPnl := sumPnl trades }

/-- A pattern record entering PatternAnalyzer._validate_patterns_with_ml: the
structural confidence field of the detector dictionaries plus a tag. -/
structure MLPat where
  ptype : String
  conf : ℚ
deriving DecidableEq, Repr

/-- PatternAnalyzer._validate_patterns_with_ml, for one pattern list: zips the
patterns with the random-forest scores and the LSTM scores (zip truncates to
the shortest list, as in Python), keeps a pattern exactly when the mean of its
two model scores exceeds 0.7, and attaches that mean as ml_confidence next to
the original fields. -/
def validatePatternsWithML (patterns : List MLPat) (rfScores lstmScores : List ℚ) :
    List (MLPat × ℚ) :=
  ((patterns.zip rfScores).zip lstmScores).filterMap fun prl =>
    if (prl.1.2 + prl.2) / 2 > 7 / 10 then some (prl.1.1, (prl.1.2 + prl.2) / 2)
    else none

/-- Modelled from the spec: the validation rule the claim states, with a
single external classifier score per pattern; blended confidence is the mean
of the structural confidence and the classifier confidence, and a pattern is
kept exactly when the blend exceeds 0.7. -/
def specValidateBlend (classifier : MLPat → ℚ) (patterns : List MLPat) :
    List (MLPat × ℚ) :=
  patterns.filterMap fun p =>
    if (p.conf + classifier p) / 2 > 7 / 10 then
      some (p, (p.conf + classifier p) / 2)
    else none

/-- Modelled from the spec: the orderblock candle trigger (the helper
_is_orderblock_candle is absent from the repository).  The spec asks for a
strong directional rejection wick; the candle qualifies when its close sits at
least twice as far from its low as from its high, a strong rejection from
below. -/
def isOrderblockCandleM (b : Bar) : Bool :=
  decide (b.close - b.low ≥ 2 * (b.high - b.close))

/-- Modelled from the spec: orientation of an orderblock candle (the helper
_is_bullish_orderblock is absent from the repository); a rejection from below
closes above its open. -/
def isBullishOrderblockM (b : Bar) : Bool :=
  decide (b.close > b.open_)

/-- Modelled from the spec: orderblock strength over the following bars (the
helper _calculate_orderblock_strength is absent from the repository),
summarised as the aggregate volume of the window it receives. -/
def orderblockStrengthM (window : List Bar) : ℚ :=
  (window.map Bar.volume).sum

/-- A strong-rejection bar used by the concrete counterexamples: long lower
wick, small body. -/
def obBarA : Bar :=
  { open_ := 100, high := 101, low := 90, close := 100 + 1 / 2
    volume := 2, atr := 1, ivRank := 50, t := 0 }

/-- A later bar agreeing with nothing before it; volume 2. -/
def obBarB : Bar :=
  { open_ := 100, high := 101, low := 99, close := 100
    volume := 2, atr := 1, ivRank := 50, t := 1 }

/-- The same later bar with its volume changed to 6: the two series built from
obBarB and obBarC agree on every bar up to index 0 and differ only later. -/
def obBarC : Bar :=
  { open_ := 100, high := 101, low := 99, close := 100
    volume := 6, atr := 1, ivRank := 50, t := 1 }

/-- Bar j of the 300-bar double-top scenario series: equal highs of 100 at
indices 50 and 90, a high of 80 (and low of 75) everywhere else, timestamp
equal to the index. -/
def mkScenBar (j : Nat) : Bar :=
  let hi : ℚ := if j = 50 ∨ j = 90 then 100 else 80
  { open_ := hi - 2, high := hi, low := hi - 5, close := hi - 1
    volume := 10, atr := 1, ivRank := 50, t := (j : ℚ) }

/-- The 300-bar scenario series of the double-top claim. -/
def series300 : List Bar :=
  (List.range 300).map mkScenBar

/-- A featureless bar with a given timestamp, for small concrete runs. -/
def plainBar (j : Nat) : Bar :=
  { open_ := 0, high := 0, low := 0, close := 0
    volume := 0, atr := 0, ivRank := 0, t := (j : ℚ) }

/-- The equity curve determined by an initial capital and a trade list: entry
k is the initial capital plus the cumulative pnl of the first k trades. -/
def equityOf (init : ℚ) (trades : List TradeRec) : List ℚ :=
  (List.range (trades.length + 1)).map fun k => init + sumPnl (trades.take k)

/-- A 21-bar series of featureless bars. -/
def wdf1 : List Bar :=
  (List.range 21).map plainBar

/-- A 21-bar series agreeing with wdf1 on its first 20 bars and differing in
the last bar only. -/
def wdf2 : List Bar :=
  (List.range 20).map plainBar ++ [plainBar 99]

/-- A concrete detected pattern with structural confidence 0, used to probe
the ML validation blend. -/
def c8pat : MLPat :=
  { ptype := "wyckoff_accumulation", conf := 0 }

/-- A concrete peak finder returning the fixed peak prices 1 and 2. -/
def c9wHelperPeaks : List ℚ → List ℚ :=
  fun _ => [1, 2]

/-- The double_top pattern emitted at index 20 of wdf1 by the double-top scan
instantiated with c9wHelperPeaks, an always-true validator, the zero target
and no volume confirmation. -/
def c9wPattern : ChartPattern :=
  { patternType := "double_top"
    confidence := none
    priceTarget := 0
    stopLoss := listMax [1, 2] + lastAtr (windowSlice wdf1 20 20) * (3 / 2)
    formationPoints :=
      (([1, 2] : List ℚ).zip ((windowSlice wdf1 20 20).map Bar.t)).map fun pt =>
        { price := pt.1, time := pt.2 }
    volumeConfirms := false }

/-! ## Helper lemmas -/

/-- Folding the period-collection step over an enumerated suffix of the mask
appends exactly the closed runs of that suffix to the accumulator. -/
lemma grp_foldl (mask : List Bool) : ∀ (i : Nat) (cs : Option Nat)
    (acc : List (Nat × Nat)),
    (List.foldl grpStep (cs, acc) (List.enumFrom i mask)).2 =
      acc ++ regimeRunsFrom i cs mask := by
  induction mask with
  | nil => intro i cs acc; simp [regimeRunsFrom]
  | cons b rest ih =>
    intro i cs acc
    cases b <;> cases cs <;>
      simp [List.enumFrom, grpStep, regimeRunsFrom, ih]

/-- A bar answered with no proposal leaves the backtest state untouched. -/
lemma btStep_none (oracle : Bar → Option Strategy)
    (executor : Strategy → Bar → ℚ → ℚ → Option TradeRec)
    (startT endT pct : ℚ) (st : BState) (b : Bar)
    (h : oracle b = none) :
    btStep oracle executor startT endT pct st b = st := by
  unfold btStep
  by_cases hr : startT ≤ b.t ∧ b.t ≤ endT <;> simp [hr, h]

/-- A run whose oracle never proposes keeps the initial state on every bar. -/
lemma runBacktest_none (oracle : Bar → Option Strategy)
    (executor : Strategy → Bar → ℚ → ℚ → Option TradeRec)
    (bars : List Bar) (startT endT init pct : ℚ)
    (h : ∀ b, oracle b = none) :
    runBacktest oracle executor bars startT endT init pct =
      { trades := [], capital := init, equity := [init] } := by
  unfold runBacktest
  induction bars with
  | nil => rfl
  | cons b rest ih =>
    rw [List.foldl_cons, btStep_none _ _ _ _ _ _ _ (h b)]
    exact ih

/-- Appending a trade adds its pnl to the cumulative pnl. -/
lemma sumPnl_append (l : List TradeRec) (tr : TradeRec) :
    sumPnl (l ++ [tr]) = sumPnl l + tr.pnl := by
  simp [sumPnl]

/-- Appending a trade appends the new cumulative capital to the reference
equity curve. -/
lemma equityOf_append (init : ℚ) (l : List TradeRec) (tr : TradeRec) :
    equityOf init (l ++ [tr]) =
      equityOf init l ++ [init + sumPnl (l ++ [tr])] := by
  unfold equityOf
  have hlen : (l ++ [tr]).length + 1 = (l.length + 1) + 1 := by simp
  rw [hlen, List.range_succ, List.map_append]
  congr 1
  · apply List.map_congr_left
    intro k hk
    rw [List.mem_range] at hk
    rw [List.take_append_of_le_length (by omega)]
  · have hfull : (l ++ [tr]).take (l.length + 1) = l ++ [tr] :=
      List.take_of_length_le (by simp)
    simp [hfull]

/-- One backtest step preserves the accounting invariant: the capital is the
initial capital plus the cumulative pnl, and the equity curve is the reference
curve of the trade list. -/
lemma btStep_inv (oracle : Bar → Option Strategy)
    (executor : Strategy → Bar → ℚ → ℚ → Option TradeRec)
    (startT endT pct init : ℚ) (st : BState) (b : Bar)
    (hc : st.capital = init + sumPnl st.trades)
    (he : st.equity = equityOf init st.trades) :
    (btStep oracle executor startT endT pct st b).capital =
      init + sumPnl (btStep oracle executor startT endT pct st b).trades ∧
    (btStep oracle executor startT endT pct st b).equity =
      equityOf init (btStep oracle executor startT endT pct st b).trades := by
  unfold btStep
  by_cases hr : startT ≤ b.t ∧ b.t ≤ endT
  · rw [if_pos hr]
    cases horacle : oracle b with
    | none => exact ⟨hc, he⟩
    | some strat =>
      dsimp only
      cases hex : executor strat b st.capital pct with
      | none => exact ⟨hc, he⟩
      | some tr =>
        constructor
        · show st.capital + tr.pnl = init + sumPnl (st.trades ++ [tr])
          rw [sumPnl_append, hc]
          ring
        · show st.equity ++ [st.capital + tr.pnl] =
            equityOf init (st.trades ++ [tr])
          rw [equityOf_append, he, hc, sumPnl_append]
          simp [add_assoc]
  · rw [if_neg hr]
    exact ⟨hc, he⟩

/-- The accounting invariant is preserved by the whole backtest fold. -/
lemma foldl_btStep_inv (oracle : Bar → Option Strategy)
    (executor : Strategy → Bar → ℚ → ℚ → Option TradeRec)
    (startT endT pct init : ℚ) :
    ∀ (bars : List Bar) (st : BState),
      st.capital = init + sumPnl st.trades →
      st.equity = equityOf init st.trades →
      (bars.foldl (btStep oracle executor startT endT pct) st).capital =
        init + sumPnl
          (bars.foldl (btStep oracle executor startT endT pct) st).trades ∧
      (bars.foldl (btStep oracle executor startT endT pct) st).equity =
        equityOf init
          (bars.foldl (btStep oracle executor startT endT pct) st).trades := by
  intro bars
  induction bars with
  | nil => intro st hc he; exact ⟨hc, he⟩
  | cons b rest ih =>
    intro st hc he
    rw [List.foldl_cons]
    obtain ⟨hc2, he2⟩ :=
      btStep_inv oracle executor startT endT pct init st b hc he
    exact ih _ hc2 he2

/-! ## C5: put/call ratio at zero call volume -/

/-- C5 counterexample.  With put volume 5 and call volume 0 the source returns
float infinity, not the undefined sentinel the claim requires: it computes
put_volume / call_volume only when call_volume is positive and otherwise
returns float(inf), which is a value that propagates into downstream
aggregates. -/
theorem c5_counterexample :
    putCallRatioOf [5] [0] = PcrResult.posInf ∧
    putCallRatioOf [5] [0] ≠ PcrResult.undefinedSentinel := by
  have h : putCallRatioOf [5] [0] = PcrResult.posInf := by
    unfold putCallRatioOf
    norm_num
  exact ⟨h, by rw [h]; exact fun hc => PcrResult.noConfusion hc⟩

/-- C5 (amended).  For every options snapshot, the put/call ratio computation
returns put volume divided by call volume when total call volume is positive,
and returns float infinity (not an exception, and not an undefined sentinel)
when total call volume is zero. -/
theorem c5_put_call_ratio (putVolumes callVolumes : List ℚ) :
    (callVolumes.sum = 0 → putCallRatioOf putVolumes callVolumes = .posInf) ∧
    (callVolumes.sum > 0 →
      putCallRatioOf putVolumes callVolumes =
        .val (putVolumes.sum / callVolumes.sum)) := by
  constructor
  · intro h
    have hng : ¬ callVolumes.sum > 0 := by rw [h]; norm_num
    simp [putCallRatioOf, hng]
  · intro h
    simp [putCallRatioOf, h]

/-- C5 witness: evaluating the amended theorem at concrete volumes. -/
theorem c5_witness :
    putCallRatioOf [5] [(0 : ℚ)] = .posInf ∧
    putCallRatioOf [6] [(2 : ℚ), 1] = .val 2 := by
  refine ⟨(c5_put_call_ratio [5] [0]).1 (by norm_num), ?_⟩
  have h := (c5_put_call_ratio [6] [2, 1]).2 (by norm_num)
  rw [h]
  congr 1
  norm_num

/-! ## C6: IV rank with a degenerate 52-week range -/

/-- C6 counterexample.  With the 52-week high equal to the 52-week low the
source divides by zero and raises ZeroDivisionError; it does not return the
null sentinel the claim requires. -/
theorem c6_counterexample :
    ivRankOf 50 40 40 = IvRankResult.zeroDivErr ∧
    ivRankOf 50 40 40 ≠ IvRankResult.nullValue := by
  have h : ivRankOf 50 40 40 = IvRankResult.zeroDivErr := by
    unfold ivRankOf
    norm_num
  exact ⟨h, by rw [h]; exact fun hc => IvRankResult.noConfusion hc⟩

/-- C6 (amended).  IV rank equals (currentIV - 52wLow) / (52wHigh - 52wLow)
times 100 when the 52-week high differs from the 52-week low; when they are
equal the computation raises ZeroDivisionError rather than returning a null
sentinel. -/
theorem c6_iv_rank (currentIv ivHigh ivLow : ℚ) :
    (ivHigh = ivLow → ivRankOf currentIv ivHigh ivLow = .zeroDivErr) ∧
    (ivHigh ≠ ivLow →
      ivRankOf currentIv ivHigh ivLow =
        .val ((currentIv - ivLow) / (ivHigh - ivLow) * 100)) := by
  constructor <;> intro h
  · simp [ivRankOf, h]
  · have hne : ivHigh - ivLow ≠ 0 := sub_ne_zero_of_ne h
    simp [ivRankOf, hne]

/-- C6 witness: evaluating the amended theorem at concrete IV data. -/
theorem c6_witness :
    ivRankOf 50 40 40 = .zeroDivErr ∧ ivRankOf 30 40 20 = .val 50 := by
  refine ⟨(c6_iv_rank 50 40 40).1 rfl, ?_⟩
  have h := (c6_iv_rank 30 40 20).2 (by norm_num)
  rw [h]
  congr 1
  norm_num

/-! ## C7: regime mask to periods -/

/-- C7 counterexample.  On the mask that is true on all three bars the source
emits no period at all; the claim requires a regime starting at the first true
bar (and closed at the final timestamp) to be emitted. -/
theorem c7_counterexample :
    ¬ ∃ pe, pe ∈ getRegimePeriods [true, true, true] ∧ pe.1 = 0 := by
  have h : getRegimePeriods [true, true, true] = [] := by decide
  simp [h]

/-- C7 (amended).  The regime segmenter converts a boolean mask into the
contiguous intervals described by the spec, except for the trailing run: a
regime starts at the first bar where the mask becomes true and ends
exclusively at the first subsequent bar where it becomes false, and a run
still true at the end of the sequence is dropped, not closed at the final
timestamp.  Formally the fold of the source equals the reference recursion
regimeRunsClosed implementing exactly that description. -/
theorem c7_regime_periods (mask : List Bool) :
    getRegimePeriods mask = regimeRunsClosed mask := by
  unfold getRegimePeriods regimeRunsClosed
  have h := grp_foldl mask 0 none []
  simpa [List.enum] using h

/-! ## C2: equity curve accounting invariant -/

/-- C2.  For every backtest run, the equity curve has one entry per recorded
trade plus the initial entry, and its entry of index k equals the initial
capital plus the cumulative pnl of the first k recorded trades; since the
trade list is appended in bar order, these are exactly the trades with entry
time up to the bar that produced entry k. -/
theorem c2_equity_invariant (oracle : Bar → Option Strategy)
    (executor : Strategy → Bar → ℚ → ℚ → Option TradeRec)
    (bars : List Bar) (startT endT init pct : ℚ) (k : Nat)
    (hk : k ≤ (runBacktest oracle executor bars startT endT init pct).trades.length) :
    (runBacktest oracle executor bars startT endT init pct).equity.length =
      (runBacktest oracle executor bars startT endT init pct).trades.length + 1 ∧
    (runBacktest oracle executor bars startT endT init pct).equity[k]? =
      some (init + sumPnl
        ((runBacktest oracle executor bars startT endT init pct).trades.take k)) := by
  have hinv := foldl_btStep_inv oracle executor startT endT pct init bars
    { trades := [], capital := init, equity := [init] }
    (by simp [sumPnl]) (by simp [equityOf, sumPnl])
  rw [runBacktest] at hk ⊢
  rw [hinv.2]
  constructor
  · simp [equityOf]
  · unfold equityOf
    rw [List.getElem?_map, List.getElem?_range (by omega)]
    rfl

/-- C2 witness: a one-bar run in which the oracle proposes and the executor
records a trade of pnl 500; the second equity entry is the initial capital
plus that pnl. -/
theorem c2_witness :
    1 ≤ (runBacktest (fun _ => some (mockStrategy { symbol := none }))
          (fun s b cap pct => some
            { entryTime := b.t, strategyType := s.strategyType
              positionSize := cap * pct, entryPrice := b.close
              exitPrice := b.close, pnl := 500, optionsData := 0 })
          [plainBar 0] 0 10 100000 (2 / 100)).trades.length ∧
    (runBacktest (fun _ => some (mockStrategy { symbol := none }))
          (fun s b cap pct => some
            { entryTime := b.t, strategyType := s.strategyType
              positionSize := cap * pct, entryPrice := b.close
              exitPrice := b.close, pnl := 500, optionsData := 0 })
          [plainBar 0] 0 10 100000 (2 / 100)).equity[1]? =
      some (100000 + sumPnl
        ((runBacktest (fun _ => some (mockStrategy { symbol := none }))
          (fun s b cap pct => some
            { entryTime := b.t, strategyType := s.strategyType
              positionSize := cap * pct, entryPrice := b.close
              exitPrice := b.close, pnl := 500, optionsData := 0 })
          [plainBar 0] 0 10 100000 (2 / 100)).trades.take 1)) := by
  have hrange : (0 : ℚ) ≤ (plainBar 0).t ∧ (plainBar 0).t ≤ 10 := by
    constructor <;> simp [plainBar]
  have hlen : 1 ≤ (runBacktest (fun _ => some (mockStrategy { symbol := none }))
      (fun s b cap pct => some
        { entryTime := b.t, strategyType := s.strategyType
          positionSize := cap * pct, entryPrice := b.close
          exitPrice := b.close, pnl := 500, optionsData := 0 })
      [plainBar 0] 0 10 100000 (2 / 100)).trades.length := by
    simp [runBacktest, btStep, hrange]
  exact ⟨hlen, (c2_equity_invariant _ _ _ _ _ _ _ 1 hlen).2⟩

/-! ## C3: a run whose oracle never proposes -/

/-- C3 counterexample.  On a two-bar series inside the date range and an
oracle that never proposes, the source produces the one-element equity curve
holding only the initial capital; the claim requires the initial capital
repeated once per bar of the series. -/
theorem c3_counterexample :
    (runBacktest (fun _ => none) (fun _ _ _ _ => none)
        [plainBar 0, plainBar 1] 0 10 100000 (2 / 100)).equity ≠
      List.replicate 2 (100000 : ℚ) := by
  have h := runBacktest_none (fun _ => none) (fun _ _ _ _ => none)
    [plainBar 0, plainBar 1] 0 10 100000 (2 / 100) (fun _ => rfl)
  rw [h]
  intro hc
  have hlen := congrArg List.length hc
  simp at hlen

/-- C3 (amended).  If the oracle returns no proposal on every bar, the
backtest produces an empty trade log, the one-element equity curve holding
the initial capital (not one entry per bar: the source appends to the equity
curve only when a trade is recorded), and a win rate of 0 with no division
fault. -/
theorem c3_no_proposal_run (oracle : Bar → Option Strategy)
    (executor : Strategy → Bar → ℚ → ℚ → Option TradeRec)
    (bars : List Bar) (startT endT init pct : ℚ)
    (h : ∀ b, oracle b = none) :
    (runBacktest oracle executor bars startT endT init pct).trades = [] ∧
    (runBacktest oracle executor bars startT endT init pct).equity = [init] ∧
    (calcPerformanceMetrics
      (runBacktest oracle executor bars startT endT init pct).trades).winRate = 0 := by
  have hr := runBacktest_none oracle executor bars startT endT init pct h
  rw [hr]
  refine ⟨rfl, rfl, ?_⟩
  simp [calcPerformanceMetrics]

/-- C3 witness: the amended theorem evaluated on a concrete two-bar run. -/
theorem c3_witness :
    (runBacktest (fun _ => none) (fun _ _ _ _ => none)
        [plainBar 0, plainBar 1] 0 10 100000 (2 / 100)).trades = [] ∧
    (runBacktest (fun _ => none) (fun _ _ _ _ => none)
        [plainBar 0, plainBar 1] 0 10 100000 (2 / 100)).equity = [100000] ∧
    (calcPerformanceMetrics
      (runBacktest (fun _ => none) (fun _ _ _ _ => none)
        [plainBar 0, plainBar 1] 0 10 100000 (2 / 100)).trades).winRate = 0 :=
  c3_no_proposal_run (fun _ => none) (fun _ _ _ _ => none)
    [plainBar 0, plainBar 1] 0 10 100000 (2 / 100) (fun _ => rfl)

/-! ## C4: oracle failure handling -/

/-- C4 counterexample.  With the assistant pipeline failing on every input,
generate_strategy falls back to the fixed mock strategy rather than reporting
no proposal, and on a one-bar run whose trade simulation succeeds the
simulator records a trade for that bar: the trade log is not empty, although
the claim requires that a failed oracle call produce no trade. -/
theorem c4_counterexample :
    (runBacktest
        (fun _ => some (generateStrategy false (fun m => Except.ok m)
          (fun _ => Except.error ()) (fun _ => true) { symbol := none }))
        (executeTrade (fun _ _ _ => Except.ok 0) (fun _ b => Except.ok b.close)
          (fun _ _ _ => Except.ok 100))
        [plainBar 0] 0 10 100000 (2 / 100)).trades ≠ [] := by
  have hrange : (0 : ℚ) ≤ (plainBar 0).t ∧ (plainBar 0).t ≤ 10 := by
    constructor <;> simp [plainBar]
  simp [runBacktest, btStep, hrange, executeTrade]

/-- C4 (amended).  When the Strategy Oracle call fails on the live path, the
generator does not treat the failure as a no-proposal outcome: it returns the
fixed mock strategy built from the original market data, which the simulator
then processes like any proposal, and the run continues. -/
theorem c4_failure_returns_mock (enrichFn : MarketData → Except Unit MarketData)
    (llm : MarketData → Except Unit Strategy) (validate : Strategy → Bool)
    (md : MarketData)
    (h : llm (enrichMarketData enrichFn md) = .error ()) :
    generateStrategy false enrichFn llm validate md = mockStrategy md := by
  simp [generateStrategy, h]

/-- C4 witness: the amended theorem evaluated with a concrete failing
assistant pipeline. -/
theorem c4_witness :
    generateStrategy false (fun m => Except.ok m) (fun _ => Except.error ())
      (fun _ => true) { symbol := none } = mockStrategy { symbol := none } :=
  c4_failure_returns_mock (fun m => Except.ok m) (fun _ => Except.error ())
    (fun _ => true) { symbol := none } rfl

/-! ## C10: failed trade simulation leaves the tick state untouched -/

/-- C10.  If the trade simulation for a valid proposal fails at any internal
step (options pricing, exit simulation, or pnl computation), the executor
returns no trade, the tick leaves the trade log, capital and equity curve
exactly as they were, and the backtest continues with the remaining bars. -/
theorem c10_failed_tick_atomic
    (simOpt : ℚ → ℚ → Strategy → Except Unit ℚ)
    (simExit : Strategy → Bar → Except Unit ℚ)
    (calcPnl : Strategy → ℚ → ℚ → Except Unit ℚ)
    (oracle : Bar → Option Strategy) (startT endT pct : ℚ)
    (st : BState) (b : Bar) (rest : List Bar) (strat : Strategy)
    (horacle : oracle b = some strat)
    (hfail : simOpt b.close b.ivRank strat = .error () ∨
      simExit strat b = .error () ∨
      ∃ pr, simOpt b.close b.ivRank strat = .ok pr ∧
        calcPnl strat pr (st.capital * pct) = .error ()) :
    executeTrade simOpt simExit calcPnl strat b st.capital pct = none ∧
    btStep oracle (executeTrade simOpt simExit calcPnl) startT endT pct st b = st ∧
    (b :: rest).foldl
        (btStep oracle (executeTrade simOpt simExit calcPnl) startT endT pct) st =
      rest.foldl
        (btStep oracle (executeTrade simOpt simExit calcPnl) startT endT pct) st := by
  have hnone : executeTrade simOpt simExit calcPnl strat b st.capital pct = none := by
    unfold executeTrade
    dsimp only
    rcases hfail with h | h | ⟨pr, hok, herr⟩
    · rw [h]
    · cases hopt : simOpt b.close b.ivRank strat with
      | error e => rfl
      | ok pr =>
        dsimp only
        rw [h]
    · rw [hok]
      dsimp only
      cases hexit : simExit strat b with
      | error e => rfl
      | ok ex =>
        dsimp only
        rw [herr]
  have hstep : btStep oracle (executeTrade simOpt simExit calcPnl)
      startT endT pct st b = st := by
    unfold btStep
    by_cases hr : startT ≤ b.t ∧ b.t ≤ endT
    · rw [if_pos hr, horacle]
      dsimp only
      rw [hnone]
    · rw [if_neg hr]
  refine ⟨hnone, hstep, ?_⟩
  rw [List.foldl_cons, hstep]

/-- C10 witness: the theorem evaluated with a concrete failing pricing step on
a concrete state and bar. -/
theorem c10_witness :
    executeTrade (fun _ _ _ => Except.error ()) (fun _ b => Except.ok b.close)
      (fun _ _ _ => Except.ok 100) (mockStrategy { symbol := none })
      (plainBar 0) 100000 (2 / 100) = none ∧
    btStep (fun _ => some (mockStrategy { symbol := none }))
      (executeTrade (fun _ _ _ => Except.error ()) (fun _ b => Except.ok b.close)
        (fun _ _ _ => Except.ok 100)) 0 10 (2 / 100)
      { trades := [], capital := 100000, equity := [100000] } (plainBar 0) =
      { trades := [], capital := 100000, equity := [100000] } ∧
    ((plainBar 0) :: []).foldl
        (btStep (fun _ => some (mockStrategy { symbol := none }))
          (executeTrade (fun _ _ _ => Except.error ())
            (fun _ b => Except.ok b.close) (fun _ _ _ => Except.ok 100))
          0 10 (2 / 100))
        { trades := [], capital := 100000, equity := [100000] } =
      List.foldl
        (btStep (fun _ => some (mockStrategy { symbol := none }))
          (executeTrade (fun _ _ _ => Except.error ())
            (fun _ b => Except.ok b.close) (fun _ _ _ => Except.ok 100))
          0 10 (2 / 100))
        { trades := [], capital := 100000, equity := [100000] } [] :=
  c10_failed_tick_atomic (fun _ _ _ => Except.error ())
    (fun _ b => Except.ok b.close) (fun _ _ _ => Except.ok 100)
    (fun _ => some (mockStrategy { symbol := none })) 0 10 (2 / 100)
    { trades := [], capital := 100000, equity := [100000] } (plainBar 0) []
    (mockStrategy { symbol := none }) rfl (Or.inl rfl)

/-! ## C1: no-lookahead of the pattern detectors -/

/-- C1 counterexample.  Two series that agree on every bar up to the current
index 0 and differ only in the volume of the later bar make the orderblock
analyzer emit different records at index 0, because the record divides by the
volume mean of the whole series: the detector reads bars after the window
end. -/
theorem c1_counterexample :
    [obBarA, obBarB].take 1 = [obBarA, obBarC].take 1 ∧
    obEmitAt isOrderblockCandleM isBullishOrderblockM orderblockStrengthM
        [obBarA, obBarB] 0 ≠
      obEmitAt isOrderblockCandleM isBullishOrderblockM orderblockStrengthM
        [obBarA, obBarC] 0 := by
  refine ⟨rfl, ?_⟩
  intro heq
  have hmap := congrArg (Option.map OBPattern.volumeRatio) heq
  norm_num [obEmitAt, volumeMean, isOrderblockCandleM, isBullishOrderblockM,
    orderblockStrengthM, obBarA, obBarB, obBarC] at hmap

/-- C1 (amended).  The windowed detectors are lookahead-free: on two series
that agree on every bar before the current index and have the same length,
the double-top/bottom scan and the Wyckoff accumulation scan emit identical
patterns at that index, for every choice of the absent helper functions
(each helper receives only the trailing window slice).  The orderblock
analyzer of pattern_analyzer.py does not share this property: it divides by
the whole-series volume mean and reads the ten bars starting at the current
index. -/
theorem c1_windowed_no_lookahead
    (findPeaks : List ℚ → List ℚ)
    (validateDT validateDB : List Bar → List ℚ → Bool)
    (target : List Bar → List ℚ → String → ℚ)
    (volConf : List Bar → List ℚ → Bool)
    (isSpring : List Bar → Bool)
    (springConf wyTarget volProf fundRate oiImp : List Bar → ℚ)
    (nearbyLiq : List Bar → List ℚ)
    (df1 df2 : List Bar) (i : Nat)
    (htake : df1.take i = df2.take i) (hlen : df1.length = df2.length) :
    doubleTopsAt findPeaks validateDT validateDB target volConf df1 i =
      doubleTopsAt findPeaks validateDT validateDB target volConf df2 i ∧
    wyckoffAt isSpring springConf wyTarget volProf fundRate oiImp nearbyLiq df1 i =
      wyckoffAt isSpring springConf wyTarget volProf fundRate oiImp nearbyLiq df2 i := by
  have h20 : windowSlice df1 i 20 = windowSlice df2 i 20 := by
    unfold windowSlice
    rw [htake]
  have h30 : windowSlice df1 i 30 = windowSlice df2 i 30 := by
    unfold windowSlice
    rw [htake]
  constructor
  · unfold doubleTopsAt
    rw [hlen, h20]
  · unfold wyckoffAt
    rw [hlen, h30]

/-- C1 witness: the amended theorem evaluated on two concrete 21-bar series
agreeing on their first 20 bars, at index 20, with concrete helpers. -/
theorem c1_witness :
    wdf1.take 20 = wdf2.take 20 ∧ wdf1.length = wdf2.length ∧
    (doubleTopsAt (fun _ => [1, 2]) (fun _ _ => true) (fun _ _ => true)
        (fun _ _ _ => 0) (fun _ _ => false) wdf1 20 =
      doubleTopsAt (fun _ => [1, 2]) (fun _ _ => true) (fun _ _ => true)
        (fun _ _ _ => 0) (fun _ _ => false) wdf2 20 ∧
    wyckoffAt (fun _ => true) (fun _ => 0) (fun _ => 0) (fun _ => 0)
        (fun _ => 0) (fun _ => 0) (fun _ => []) wdf1 20 =
      wyckoffAt (fun _ => true) (fun _ => 0) (fun _ => 0) (fun _ => 0)
        (fun _ => 0) (fun _ => 0) (fun _ => []) wdf2 20) :=
  ⟨rfl, rfl,
    c1_windowed_no_lookahead (fun _ => [1, 2]) (fun _ _ => true)
      (fun _ _ => true) (fun _ _ _ => 0) (fun _ _ => false) (fun _ => true)
      (fun _ => 0) (fun _ => 0) (fun _ => 0) (fun _ => 0) (fun _ => 0)
      (fun _ => []) wdf1 wdf2 20 rfl rfl⟩

/-! ## C8: ML validation blend -/

/-- Unfolding the ML validation one pattern at a time. -/
lemma validateML_cons (p0 : MLPat) (ps : List MLPat) (r0 : ℚ) (rs : List ℚ)
    (l0 : ℚ) (ls : List ℚ) :
    validatePatternsWithML (p0 :: ps) (r0 :: rs) (l0 :: ls) =
      (if (r0 + l0) / 2 > 7 / 10 then [(p0, (r0 + l0) / 2)] else []) ++
        validatePatternsWithML ps rs ls := by
  unfold validatePatternsWithML
  rw [List.zip_cons_cons, List.zip_cons_cons, List.filterMap_cons]
  by_cases hc : (r0 + l0) / 2 > 7 / 10
  · simp [hc]
  · simp [hc]

/-- C8 counterexample.  A pattern of structural confidence 0 whose two model
scores are both 0.9 is kept by the source with ml_confidence 0.9, yet under
the claim the blend (structural + classifier)/2 is at most 1/2 for every
classifier probability in [0,1], so the claimed validated set is empty: no
classifier score makes the claimed rule reproduce the code. -/
theorem c8_counterexample :
    ¬ ∃ c : ℚ, 0 ≤ c ∧ c ≤ 1 ∧
      validatePatternsWithML [c8pat] [9 / 10] [9 / 10] =
        specValidateBlend (fun _ => c) [c8pat] := by
  rintro ⟨c, hc0, hc1, heq⟩
  have hl : validatePatternsWithML [c8pat] [9 / 10] [9 / 10] =
      [(c8pat, 9 / 10)] := by
    norm_num [validatePatternsWithML, c8pat, List.filterMap_cons]
  have hcond : ¬ ((c8pat.conf + c) / 2 > 7 / 10) := by
    intro hgt
    rw [show c8pat.conf = 0 from rfl] at hgt
    linarith
  have hr : specValidateBlend (fun _ => c) [c8pat] = [] := by
    simp [specValidateBlend, hcond]
  rw [hl, hr] at heq
  simp at heq

/-- C8 (amended).  For every pattern list and model-score lists, a pattern
paired with a blended confidence is in the validated set exactly when some
index pairs it with a random-forest score and an LSTM score whose mean it is
and that mean exceeds 0.7.  The structural confidence of the pattern is
carried through unchanged and does not enter the blend or the filter. -/
theorem c8_ml_blend_membership (patterns : List MLPat)
    (rfScores lstmScores : List ℚ) (p : MLPat) (b : ℚ) :
    (p, b) ∈ validatePatternsWithML patterns rfScores lstmScores ↔
      ∃ (i : Nat) (r l : ℚ), patterns[i]? = some p ∧ rfScores[i]? = some r ∧
        lstmScores[i]? = some l ∧ b = (r + l) / 2 ∧ b > 7 / 10 := by
  induction patterns generalizing rfScores lstmScores with
  | nil => simp [validatePatternsWithML]
  | cons p0 ps ih =>
    cases rfScores with
    | nil => simp [validatePatternsWithML]
    | cons r0 rs =>
      cases lstmScores with
      | nil => simp [validatePatternsWithML]
      | cons l0 ls =>
        rw [validateML_cons]
        constructor
        · intro hmem
          rcases List.mem_append.1 hmem with hin | hin
          · by_cases hc : (r0 + l0) / 2 > 7 / 10
            · rw [if_pos hc] at hin
              have heq := List.mem_singleton.1 hin
              have hp : p = p0 := congrArg Prod.fst heq
              have hb : b = (r0 + l0) / 2 := congrArg Prod.snd heq
              refine ⟨0, r0, l0, ?_, by simp, by simp, hb, ?_⟩
              · rw [hp]; simp
              · rw [hb]; exact hc
            · rw [if_neg hc] at hin
              exact absurd hin (List.not_mem_nil _)
          · obtain ⟨i, r, l, h1, h2, h3, h4, h5⟩ := (ih rs ls).1 hin
            exact ⟨i + 1, r, l, by simpa using h1, by simpa using h2,
              by simpa using h3, h4, h5⟩
        · rintro ⟨i, r, l, h1, h2, h3, h4, h5⟩
          cases i with
          | zero =>
            have hp : p0 = p := by
              have := h1
              rw [List.getElem?_cons_zero] at this
              exact Option.some.inj this
            have hr0 : r0 = r := by
              have := h2
              rw [List.getElem?_cons_zero] at this
              exact Option.some.inj this
            have hl0 : l0 = l := by
              have := h3
              rw [List.getElem?_cons_zero] at this
              exact Option.some.inj this
            apply List.mem_append.2
            left
            have hcond : (r0 + l0) / 2 > 7 / 10 := by
              rw [hr0, hl0, ← h4]
              exact h5
            rw [if_pos hcond]
            apply List.mem_singleton.2
            rw [← hp, hr0, hl0, ← h4]
          | succ j =>
            apply List.mem_append.2
            right
            exact (ih rs ls).2 ⟨j, r, l, by simpa using h1, by simpa using h2,
              by simpa using h3, h4, h5⟩

/-! ## C9: the 300-bar double-top scenario -/

/-- Mapping the time over formation points built by zipping peak prices with
window timestamps yields an initial segment of the window timestamps. -/
lemma zip_mk_map_time (ps ts : List ℚ) :
    (((ps.zip ts).map fun pt =>
        ({ price := pt.1, time := pt.2 } : FormationPoint)).map
      FormationPoint.time) = ts.take (ps.zip ts).length := by
  induction ps generalizing ts with
  | nil => simp
  | cons p0 ps2 ih =>
    cases ts with
    | nil => simp
    | cons t0 ts2 => simp [List.zip_cons_cons, ih]

/-- Any pattern emitted by an iteration of the double-top scan is emitted at
an in-range index and carries formation-point times equal to the leading
timestamps of its 20-bar window, whatever the absent helpers do. -/
lemma dtShapeAux (findPeaks : List ℚ → List ℚ)
    (validateDT validateDB : List Bar → List ℚ → Bool)
    (target : List Bar → List ℚ → String → ℚ)
    (volConf : List Bar → List ℚ → Bool)
    (df : List Bar) (i : Nat) (p : ChartPattern)
    (hp : p ∈ doubleTopsAt findPeaks validateDT validateDB target volConf df i) :
    20 ≤ i ∧ i < df.length ∧
    p.formationPoints.map FormationPoint.time =
      ((windowSlice df i 20).map Bar.t).take p.formationPoints.length := by
  unfold doubleTopsAt at hp
  by_cases hg : 20 ≤ i ∧ i < df.length
  · rw [if_pos hg] at hp
    dsimp only at hp
    refine ⟨hg.1, hg.2, ?_⟩
    rcases List.mem_append.1 hp with h | h
    · split at h
      · rw [List.mem_singleton] at h
        subst h
        dsimp only
        rw [List.length_map]
        exact zip_mk_map_time _ _
      · simp at h
    · split at h
      · rw [List.mem_singleton] at h
        subst h
        dsimp only
        rw [List.length_map]
        exact zip_mk_map_time _ _
      · simp at h
  · rw [if_neg hg] at hp
    simp at hp

/-- C9 (amended).  On any series, every pattern the double-top scan emits at
an iteration takes its formation-point times from the first bars of the
20-bar trailing window, not from the peak positions: the source indexes the
window timestamps with the enumeration counter of the peak list.  In
particular, since the scenario peaks at indices 50 and 90 are 40 bars apart,
no emitted double_top can carry formation points at both peaks. -/
theorem c9_formation_times_from_window
    (findPeaks : List ℚ → List ℚ)
    (validateDT validateDB : List Bar → List ℚ → Bool)
    (target : List Bar → List ℚ → String → ℚ)
    (volConf : List Bar → List ℚ → Bool)
    (df : List Bar) (i : Nat) (p : ChartPattern)
    (hp : p ∈ doubleTopsAt findPeaks validateDT validateDB target volConf df i) :
    p.formationPoints.map FormationPoint.time =
      ((windowSlice df i 20).map Bar.t).take p.formationPoints.length :=
  (dtShapeAux findPeaks validateDT validateDB target volConf df i p hp).2.2

/-- C9 witness: the amended theorem evaluated on a concrete emission of the
scan at index 20 of a 21-bar series. -/
theorem c9_witness :
    c9wPattern ∈ doubleTopsAt c9wHelperPeaks (fun _ _ => true) (fun _ _ => false)
        (fun _ _ _ => 0) (fun _ _ => false) wdf1 20 ∧
    c9wPattern.formationPoints.map FormationPoint.time =
      ((windowSlice wdf1 20 20).map Bar.t).take c9wPattern.formationPoints.length := by
  have hmem : c9wPattern ∈ doubleTopsAt c9wHelperPeaks (fun _ _ => true)
      (fun _ _ => false) (fun _ _ _ => 0) (fun _ _ => false) wdf1 20 := by
    unfold doubleTopsAt
    rw [if_pos (⟨le_refl 20, by simp [wdf1]⟩ : 20 ≤ 20 ∧ 20 < wdf1.length)]
    dsimp only
    rw [if_pos (⟨by simp [c9wHelperPeaks], rfl⟩ :
      2 ≤ (c9wHelperPeaks ((windowSlice wdf1 20 20).map Bar.high)).length ∧
        (fun (_ : List Bar) (_ : List ℚ) => true) (windowSlice wdf1 20 20)
          (c9wHelperPeaks ((windowSlice wdf1 20 20).map Bar.high)) = true)]
    rw [if_neg (by simp :
      ¬ (2 ≤ (c9wHelperPeaks (((windowSlice wdf1 20 20).map Bar.low).map Neg.neg)).length ∧
        (fun (_ : List Bar) (_ : List ℚ) => false) (windowSlice wdf1 20 20)
          (c9wHelperPeaks (((windowSlice wdf1 20 20).map Bar.low).map Neg.neg)) = true))]
    simp [c9wPattern, c9wHelperPeaks, patternConfidenceOf]
  exact ⟨hmem, c9_formation_times_from_window c9wHelperPeaks (fun _ _ => true)
    (fun _ _ => false) (fun _ _ _ => 0) (fun _ _ => false) wdf1 20 c9wPattern hmem⟩

/-- C9 counterexample.  The concrete 300-bar series has equal highs of 100 at
indices 50 and 90 and bars at least 5 percent lower everywhere between them,
yet no instantiation of the absent helpers makes the double-top scan emit a
double_top whose formation points sit at the two peaks with a target below
the trough: the peaks are 40 bars apart while every emitted pattern draws its
formation times from the 20 leading consecutive timestamps of one window. -/
theorem c9_counterexample :
    series300.length = 300 ∧
    (series300[50]?).map Bar.high = some 100 ∧
    (series300[90]?).map Bar.high = some 100 ∧
    ((List.range 39).all fun k =>
      decide ((mkScenBar (51 + k)).high ≤ 95) &&
        decide ((mkScenBar (51 + k)).low ≤ 95)) = true ∧
    ¬ ∃ (findPeaks : List ℚ → List ℚ)
        (validateDT validateDB : List Bar → List ℚ → Bool)
        (target : List Bar → List ℚ → String → ℚ)
        (volConf : List Bar → List ℚ → Bool) (p : ChartPattern),
        p ∈ findDoubleTopsBottoms findPeaks validateDT validateDB target
            volConf series300 ∧
        p.patternType = "double_top" ∧
        p.formationPoints = [{ price := 100, time := 50 },
          { price := 100, time := 90 }] ∧
        p.priceTarget < 75 := by
  refine ⟨by simp [series300], ?_, ?_, ?_, ?_⟩
  · have h50 : series300[50]? = some (mkScenBar 50) := by
      rw [series300, List.getElem?_map, List.getElem?_range (by norm_num)]
      rfl
    rw [h50]
    simp [mkScenBar]
  · have h90 : series300[90]? = some (mkScenBar 90) := by
      rw [series300, List.getElem?_map, List.getElem?_range (by norm_num)]
      rfl
    rw [h90]
    simp [mkScenBar]
  · rw [List.all_eq_true]
    intro k hk
    rw [List.mem_range] at hk
    have hne : ¬ (51 + k = 50 ∨ 51 + k = 90) := by omega
    simp only [Bool.and_eq_true, decide_eq_true_eq, mkScenBar, hne, if_false]
    norm_num
  · rintro ⟨fp, vdt, vdb, tgt, vc, p, hmem, htype, hform, htgt⟩
    unfold findDoubleTopsBottoms at hmem
    rw [List.mem_flatMap] at hmem
    obtain ⟨i, hi, hp⟩ := hmem
    obtain ⟨h20, hlen, htimes⟩ := dtShapeAux fp vdt vdb tgt vc series300 i p hp
    have hi300 : i < 300 := by simpa [series300] using hlen
    rw [hform] at htimes
    simp only [List.map_cons, List.map_nil, List.length_cons,
      List.length_nil] at htimes
    have hwin : ∀ j, j < 2 →
        ((windowSlice series300 i 20).map Bar.t)[j]? =
          some ((i - 20 + j : ℕ) : ℚ) := by
      intro j hj
      rw [List.getElem?_map, windowSlice, List.getElem?_drop,
        List.getElem?_take_of_lt (show i - 20 + j < i by omega),
        series300, List.getElem?_map,
        List.getElem?_range (show i - 20 + j < 300 by omega)]
      rfl
    have h0 := congrArg (fun l => l[0]?) htimes
    have h1 := congrArg (fun l => l[1]?) htimes
    simp only at h0 h1
    rw [List.getElem?_take_of_lt (by norm_num)] at h0 h1
    rw [hwin 0 (by norm_num)] at h0
    rw [hwin 1 (by norm_num)] at h1
    have hl0 : (([(50 : ℚ), 90] : List ℚ))[0]? = some 50 := rfl
    have hl1 : (([(50 : ℚ), 90] : List ℚ))[1]? = some 90 := rfl
    rw [hl0] at h0
    rw [hl1] at h1
    have e0 : ((i - 20 + 0 : ℕ) : ℚ) = 50 := (Option.some.inj h0).symm
    have e1 : ((i - 20 + 1 : ℕ) : ℚ) = 90 := (Option.some.inj h1).symm
    have e0n : i - 20 + 0 = 50 := by exact_mod_cast e0
    have e1n : i - 20 + 1 = 90 := by exact_mod_cast e1
    omega

end AutoTrader
